import Mathlib

/-!
Verification of the answer-computation module `Scripts/ai.py` of
RainClassroomAssitan-AI.

The module's core function `ai_calc(problem_type, body, options)` builds a
textual prompt from a question, performs one chat-completion call, and parses
the returned text into a list of option keys.

Shallow embedding conventions:
* A Python dict (an option such as `{"key": "A", "value": "..."}`) is an
  association list `Dict`; a missing field makes the lookup return `none`,
  which models the `KeyError` the subscript `option['key']` would raise.
* The outcome of the guarded region's external steps (client construction,
  the network call, and extraction of `response.choices[0].message.content`)
  is a parameter `callResult : Except Unit String`: `.ok raw` is the reply
  text the model returned, `.error ()` is any exception raised there.
* `random.choice(remaining_options)` is modelled by a `seed : Nat` parameter
  selecting the index `seed % length`; every possible behaviour of
  `random.choice` on a nonempty list corresponds to some seed.
* The function's result is `Except Unit CalcResult`: `.error ()` is an
  exception escaping `ai_calc` (only possible before the `try`), `.ok r`
  carries the returned list `r.answers` and the diagnostics `r.log` printed
  by the `except` handler.
-/

namespace RainClassroom

/-- A Python dict with string keys and string values, as an association list. -/
abbrev Dict := List (String × String)

/-- `d[k]` on a Python dict: the value at the first matching key, `none` when
the key is absent (which in Python raises `KeyError`). -/
def dictGet (d : Dict) (k : String) : Option String :=
  (d.find? (fun p => p.1 == k)).map (fun p => p.2)

/-- Lines 45-47: the loop accumulating `options_text += f"{option['key']}: {option['value']}\n"`.
Returns `none` when some option lacks a `key` or `value` field (a `KeyError`
raised before the `try` block). -/
def options_text : List Dict → Option String
  | [] => some ""
  | o :: rest => do
    let k ← dictGet o "key"
    let v ← dictGet o "value"
    let restText ← options_text rest
    pure (k ++ ": " ++ v ++ "\n" ++ restText)

/-- Lines 50-57: the instruction string selected by `problem_type`. -/
def instruction (problem_type : Int) : String :=
  if problem_type = 1 then
    "这是一道单选题，请选择一个最合适的选项。只需回答选项字母，如'A'。"
  else if problem_type = 2 then
    "这是一道多选题，请选择所有正确的选项（至少两个）。只需回答选项字母，如'A,C,D'。至少有两个选项是正确的，并且宁可少选（如只选最有可能的两项）也不要多选错误选项（如选了三项但有一项是错误的），因为错选或者多选不给分，少选却有一半的分数。"
  else if problem_type = 3 then
    "这是一道投票题，类似单选题，请选择一个最合适的选项。只需回答选项字母，如'A'。"
  else
    "请分析这个问题，并选择正确的选项。只需回答选项字母。"

/-- Lines 60-67: the full prompt f-string. -/
def build_prompt (problem_type : Int) (body otext : String) : String :=
  "请回答以下题目，" ++ instruction problem_type ++ "\n    \n题目：" ++ body ++
    "\n\n选项：\n" ++ otext ++
    "\n\n请直接回答选项字母，不要有任何解释或其他文字。例如：A 或 A,B,C"

/-- The whitespace characters removed by Python's default `str.strip()`
(the ASCII ones; exotic Unicode space classes are not modelled). -/
def py_isspace (c : Char) : Bool :=
  c == ' ' || c == '\t' || c == '\n' || c == '\r' || c == '\x0b' || c == '\x0c'

/-- Line 85: `answer_text = response...content.strip()`. -/
def py_strip (s : String) : String :=
  String.mk (((s.toList.dropWhile py_isspace).reverse.dropWhile py_isspace).reverse)

/-- Line 89: `.replace(' ', '').replace('，', ',').replace('、', ',').replace(';', ',').replace('；', ',')`.
Every pattern is a single character and every replacement a single character or
empty, so `str.replace` acts independently on each character: deleting spaces
then mapping the comma-like punctuation to `,`. -/
def unify_punctuation (s : String) : String :=
  String.mk ((s.toList.filter (fun c => c ≠ ' ')).map
    (fun c => if c = '，' ∨ c = '、' ∨ c = ';' ∨ c = '；' then ',' else c))

/-- Lines 85-89 combined: strip, then normalize punctuation. -/
def normalize_answer (raw : String) : String :=
  unify_punctuation (py_strip raw)

/-- Python's `s.split(',')`: split at every comma, keeping empty pieces. -/
def split_commas : List Char → List (List Char)
  | [] => [[]]
  | c :: cs =>
    let rest := split_commas cs
    if c = ',' then [] :: rest
    else
      match rest with
      | [] => [[c]]
      | t :: ts => (c :: t) :: ts

/-- Lines 92-95: `answers = answer_text.split(',') if ',' in answer_text else [answer_text]`. -/
def split_answers (s : String) : List String :=
  if s.toList.contains ',' then (split_commas s.toList).map String.mk else [s]

/-- Line 98: `valid_options = [opt['key'] for opt in options]`; `none` models the
`KeyError` when some option lacks a `key` field. -/
def get_keys : List Dict → Option (List String)
  | [] => some []
  | o :: rest =>
    match dictGet o "key", get_keys rest with
    | some k, some ks => some (k :: ks)
    | _, _ => none

/-- Lines 85-99 applied to a reply text: normalize, split, and keep only tokens
that are valid option keys (`ans in valid_options`). -/
def filtered_tokens (valid_options : List String) (raw : String) : List String :=
  (split_answers (normalize_answer raw)).filter (fun a => decide (a ∈ valid_options))

/-- Lines 102-107: for a multiple-choice question with fewer than two surviving
answers and at least two option keys, append one randomly chosen unused key. -/
def backfill (problem_type : Int) (valid_options answers : List String) (seed : Nat) : List String :=
  if problem_type = 2 ∧ answers.length < 2 ∧ 2 ≤ valid_options.length then
    match valid_options.filter (fun o => decide (o ∉ answers)) with
    | [] => answers
    | x :: xs =>
      answers ++ [(x :: xs).get ⟨seed % (xs.length + 1), Nat.mod_lt _ (Nat.succ_pos _)⟩]
  else answers

/-- The returned list together with the diagnostics printed on the way. -/
structure CalcResult where
  answers : List String
  log : List String
  deriving Repr, DecidableEq

/-- Line 112: the diagnostic printed by the `except` handler. -/
def ai_error_log : String := "调用AI模型出错"

/-- Lines 69-114: the `try`/`except` block. Receives the already-built prompt
(it is sent to the API but cannot influence the modelled reply). A failing
external step (`callResult = .error ()`) or a `KeyError` at line 98 is caught
by the handler, which logs and returns `[]`; otherwise the reply is
normalized, split, filtered, and possibly backfilled. -/
def try_region (problem_type : Int) (_prompt : String) (options : List Dict)
    (callResult : Except Unit String) (seed : Nat) : CalcResult :=
  match callResult with
  | Except.error _ => ⟨[], [ai_error_log]⟩
  | Except.ok raw =>
    match get_keys options with
    | none => ⟨[], [ai_error_log]⟩
    | some valid_options =>
      ⟨backfill problem_type valid_options (filtered_tokens valid_options raw) seed, []⟩

/-- Lines 32-114: `ai_calc(problem_type, body, options)`.
Prompt construction (lines 44-67) runs before the `try`, so a `KeyError` there
escapes as `.error ()`; otherwise the guarded region runs and its result is
returned. -/
def ai_calc (problem_type : Int) (body : String) (options : List Dict)
    (callResult : Except Unit String) (seed : Nat) : Except Unit CalcResult :=
  match options_text options with
  | none => Except.error ()
  | some otext =>
    Except.ok (try_region problem_type (build_prompt problem_type body otext) options callResult seed)

/-- The multiple-choice options of the module's own test (lines 122-129). -/
def optionsAF : List Dict :=
  [[("key", "A"), ("value", "细胞学说")],
   [("key", "B"), ("value", "自然辩证法")],
   [("key", "C"), ("value", "分子进化学说")],
   [("key", "D"), ("value", "日心说")],
   [("key", "E"), ("value", "生物进化论")],
   [("key", "F"), ("value", "能量守恒与转化定律")]]

/-- The single-choice options of the module's own test (lines 137-140). -/
def optionsAB : List Dict :=
  [[("key", "A"), ("value", "正确")],
   [("key", "B"), ("value", "错误")]]

/-! ## Basic lemmas about the embedded operations -/

/-- Every key produced by the comprehension at line 98 is the `key` field of
one of the question's options. -/
theorem get_keys_mem {options : List Dict} {keys : List String}
    (h : get_keys options = some keys) {a : String} (ha : a ∈ keys) :
    ∃ o ∈ options, dictGet o "key" = some a := by
  induction options generalizing keys with
  | nil =>
    simp only [get_keys, Option.some.injEq] at h
    subst h
    cases ha
  | cons o rest ih =>
    rw [get_keys] at h
    rcases hk : dictGet o "key" with _ | k <;> rw [hk] at h
    · cases h
    · rcases hks : get_keys rest with _ | ks <;> rw [hks] at h
      · cases h
      · simp only [Option.some.injEq] at h
        subst h
        rcases List.mem_cons.mp ha with rfl | hmem
        · exact ⟨o, List.mem_cons_self o rest, hk⟩
        · obtain ⟨o', ho', hko'⟩ := ih hks hmem
          exact ⟨o', List.mem_cons_of_mem o ho', hko'⟩

/-- The comprehension at line 98 yields one key per option. -/
theorem get_keys_length {options : List Dict} {keys : List String}
    (h : get_keys options = some keys) : keys.length = options.length := by
  induction options generalizing keys with
  | nil =>
    simp only [get_keys, Option.some.injEq] at h
    subst h
    rfl
  | cons o rest ih =>
    rw [get_keys] at h
    rcases hk : dictGet o "key" with _ | k <;> rw [hk] at h
    · cases h
    · rcases hks : get_keys rest with _ | ks <;> rw [hks] at h
      · cases h
      · simp only [Option.some.injEq] at h
        subst h
        simp [ih hks]

/-- Tokens kept by the filter at line 99 are valid option keys. -/
theorem mem_of_filtered {keys : List String} {raw a : String}
    (h : a ∈ filtered_tokens keys raw) : a ∈ keys :=
  of_decide_eq_true (List.mem_filter.mp h).2

/-- The filtered tokens are a subsequence of the split tokens (line 99 is a
filter, so relative order is preserved). -/
theorem filtered_tokens_sublist (keys : List String) (raw : String) :
    (filtered_tokens keys raw).Sublist (split_answers (normalize_answer raw)) :=
  List.filter_sublist _

/-- The backfill either leaves the answers unchanged or appends exactly one
key that is a valid option key not already present; the latter happens only
for a multiple-choice question with fewer than two answers and at least two
option keys. -/
theorem backfill_cases (pt : Int) (keys ans : List String) (seed : Nat) :
    backfill pt keys ans seed = ans ∨
      ∃ k, k ∈ keys ∧ k ∉ ans ∧ backfill pt keys ans seed = ans ++ [k] ∧
        pt = 2 ∧ ans.length < 2 ∧ 2 ≤ keys.length := by
  unfold backfill
  split
  · rcases hrem : keys.filter (fun o => decide (o ∉ ans)) with _ | ⟨x, xs⟩
    · exact Or.inl rfl
    · right
      have hmem : (x :: xs).get ⟨seed % (xs.length + 1), Nat.mod_lt _ (Nat.succ_pos _)⟩
          ∈ keys.filter (fun o => decide (o ∉ ans)) := by
        rw [hrem]
        exact List.get_mem _ _ _
      obtain ⟨hk, hdec⟩ := List.mem_filter.mp hmem
      exact ⟨_, hk, of_decide_eq_true hdec, rfl, by assumption⟩
  · exact Or.inl rfl

/-- The backfill changes nothing for a problem type other than 2. -/
theorem backfill_of_ne_two (pt : Int) (keys ans : List String) (seed : Nat)
    (h : pt ≠ 2) : backfill pt keys ans seed = ans := by
  unfold backfill
  exact if_neg (fun hc => h hc.1)

/-- The backfill changes nothing when at least two answers survived. -/
theorem backfill_of_two_le (pt : Int) (keys ans : List String) (seed : Nat)
    (h : 2 ≤ ans.length) : backfill pt keys ans seed = ans := by
  unfold backfill
  exact if_neg (fun hc => absurd hc.2.1 (Nat.not_lt.mpr h))

/-- The backfill changes nothing when every option key is already used. -/
theorem backfill_of_all_used (pt : Int) (keys ans : List String) (seed : Nat)
    (hall : ∀ k ∈ keys, k ∈ ans) : backfill pt keys ans seed = ans := by
  unfold backfill
  split
  · have hrem : keys.filter (fun o => decide (o ∉ ans)) = [] := by
      rw [List.filter_eq_nil_iff]
      intro a hma
      simpa using hall a hma
    rw [hrem]
  · rfl

/-- When the backfill guard holds and some option key is unused, exactly one
unused key is appended. -/
theorem backfill_append_of_unused (keys ans : List String) (seed : Nat)
    (hlen : ans.length < 2) (hk2 : 2 ≤ keys.length)
    (hex : ∃ k ∈ keys, k ∉ ans) :
    ∃ k, k ∈ keys ∧ k ∉ ans ∧ backfill 2 keys ans seed = ans ++ [k] := by
  unfold backfill
  rw [if_pos (show (2 : Int) = 2 ∧ ans.length < 2 ∧ 2 ≤ keys.length from ⟨rfl, hlen, hk2⟩)]
  rcases hrem : keys.filter (fun o => decide (o ∉ ans)) with _ | ⟨x, xs⟩
  · exfalso
    obtain ⟨k, hk, hknot⟩ := hex
    have := (List.filter_eq_nil_iff.mp hrem) k hk
    simp at this
    exact hknot this
  · have hmem : (x :: xs).get ⟨seed % (xs.length + 1), Nat.mod_lt _ (Nat.succ_pos _)⟩
        ∈ keys.filter (fun o => decide (o ∉ ans)) := by
      rw [hrem]
      exact List.get_mem _ _ _
    obtain ⟨hk, hdec⟩ := List.mem_filter.mp hmem
    exact ⟨_, hk, of_decide_eq_true hdec, rfl⟩

/-- Inversion for a successful `ai_calc` run: the prompt was built and the
result is that of the guarded region. -/
theorem ai_calc_ok_inv {pt : Int} {body : String} {options : List Dict}
    {cr : Except Unit String} {seed : Nat} {r : CalcResult}
    (h : ai_calc pt body options cr seed = Except.ok r) :
    ∃ otext, options_text options = some otext ∧
      r = try_region pt (build_prompt pt body otext) options cr seed := by
  unfold ai_calc at h
  rcases hot : options_text options with _ | otext <;> rw [hot] at h
  · cases h
  · exact ⟨otext, rfl, (Except.ok.inj h).symm⟩

/-- The guarded region returns `[]` on a failure, and otherwise the filtered,
possibly backfilled token list. -/
theorem try_region_cases (pt : Int) (prompt : String) (options : List Dict)
    (cr : Except Unit String) (seed : Nat) :
    (try_region pt prompt options cr seed).answers = [] ∨
      ∃ raw keys, cr = Except.ok raw ∧ get_keys options = some keys ∧
        (try_region pt prompt options cr seed).answers =
          backfill pt keys (filtered_tokens keys raw) seed := by
  unfold try_region
  cases cr with
  | error e => exact Or.inl rfl
  | ok raw =>
    rcases hk : get_keys options with _ | keys
    · exact Or.inl rfl
    · exact Or.inr ⟨raw, keys, rfl, rfl, rfl⟩

/-- On the success path, `ai_calc` returns the backfilled filtered tokens and
an empty log. -/
theorem ai_calc_ok_eq {pt : Int} {body : String} {options : List Dict}
    {raw : String} {seed : Nat} {otext : String} {keys : List String}
    (h1 : options_text options = some otext) (h2 : get_keys options = some keys) :
    ai_calc pt body options (Except.ok raw) seed =
      Except.ok ⟨backfill pt keys (filtered_tokens keys raw) seed, []⟩ := by
  unfold ai_calc try_region
  rw [h1, h2]

/-! ## Claim theorems -/

/-- Claim C1: for every question and every text the model may return, every
key in the list returned by `ai_calc` is the key of one of the question's
options — both for keys kept by the token filter and for a key appended by
the multiple-choice backfill. -/
theorem returned_keys_are_option_keys (pt : Int) (body : String) (options : List Dict)
    (cr : Except Unit String) (seed : Nat) (r : CalcResult)
    (h : ai_calc pt body options cr seed = Except.ok r)
    (a : String) (ha : a ∈ r.answers) :
    ∃ o ∈ options, dictGet o "key" = some a := by
  obtain ⟨otext, hot, hr⟩ := ai_calc_ok_inv h
  subst hr
  rcases try_region_cases pt (build_prompt pt body otext) options cr seed with
    hemp | ⟨raw, keys, hcr, hk, heq⟩
  · rw [hemp] at ha
    cases ha
  · rw [heq] at ha
    rcases backfill_cases pt keys (filtered_tokens keys raw) seed with hb | ⟨k, hkm, _, hb, _⟩
    · rw [hb] at ha
      exact get_keys_mem hk (mem_of_filtered ha)
    · rw [hb] at ha
      rcases List.mem_append.mp ha with ha' | ha'
      · exact get_keys_mem hk (mem_of_filtered ha')
      · rw [List.mem_singleton.mp ha']
        exact get_keys_mem hk hkm

/-- Witness for C1 at a concrete run returning the key `A`. -/
theorem returned_keys_are_option_keys_witness :
    ∃ o ∈ optionsAB, dictGet o "key" = some "A" :=
  returned_keys_are_option_keys 1 "题目" optionsAB (Except.ok "A") 0 ⟨["A"], []⟩ rfl "A"
    (by decide)

/-- Claim C5: whenever any step inside the guarded region (client
construction, the network call, or parsing of the reply) fails, `ai_calc`
returns the empty list together with the diagnostic log, and no exception
propagates to its caller. -/
theorem guarded_failure_returns_empty (pt : Int) (body : String) (options : List Dict)
    (seed : Nat) (otext : String) (h : options_text options = some otext) :
    ai_calc pt body options (Except.error ()) seed = Except.ok ⟨[], [ai_error_log]⟩ := by
  unfold ai_calc try_region
  rw [h]

/-- Witness for C5: a failing network call on the repository's single-choice
test question yields the empty answer and the diagnostic. -/
theorem guarded_failure_returns_empty_witness :
    ai_calc 1 "题目" optionsAB (Except.error ()) 0 = Except.ok ⟨[], [ai_error_log]⟩ :=
  guarded_failure_returns_empty 1 "题目" optionsAB 0 "A: 正确\nB: 错误\n" rfl

/-- Claim C10: prompt construction happens before the exception-guarded
region, so an options list containing a dictionary without a `key` (resp.
`value`) field makes `ai_calc` raise a `KeyError` past its boundary instead
of returning the empty list — even when the guarded region itself would have
failed and been caught. -/
theorem prompt_keyerror_escapes :
    ai_calc 1 "题目" [[("value", "正确")]] (Except.ok "A") 0 = Except.error () ∧
    ai_calc 2 "题目" [[("key", "A")]] (Except.error ()) 0 = Except.error () ∧
    (Except.error () : Except Unit CalcResult) ≠ Except.ok ⟨[], [ai_error_log]⟩ :=
  ⟨rfl, rfl, fun hcon => Except.noConfusion hcon⟩

/-- Claim C8: the reply parser normalizes the model text (strip whitespace,
unify the punctuation `，`, `、`, `;`, `；` to commas), splits on commas, and
keeps exactly the tokens equal to an option key: reply `B,C` on the A–F
multiple-choice question yields `["B", "C"]`, reply `A` on the A/B
single-choice question yields `["A"]`, and a whitespace/punctuation variant
normalizes identically — for every body and random seed. -/
theorem parse_normalization_examples (body : String) (seed : Nat) :
    ai_calc 2 body optionsAF (Except.ok "B,C") seed = Except.ok ⟨["B", "C"], []⟩ ∧
    ai_calc 1 body optionsAB (Except.ok "A") seed = Except.ok ⟨["A"], []⟩ ∧
    ai_calc 2 body optionsAF (Except.ok " B， C、D\n") seed = Except.ok ⟨["B", "C", "D"], []⟩ ∧
    normalize_answer " B， C、D\n" = "B,C,D" ∧
    split_answers "B,C,D" = ["B", "C", "D"] :=
  ⟨rfl, rfl, rfl, rfl, rfl⟩

/-- Claim C6: on a successful call, for a multiple-choice question where fewer
than two valid keys survived the filter and the question has at least two
options, `ai_calc` appends exactly one option key not already in the answer
list; it appends nothing when no unused key exists or for any other problem
type. -/
theorem multi_backfill_behaviour (pt : Int) (body : String) (options : List Dict)
    (raw : String) (seed : Nat) (otext : String) (keys : List String) (r : CalcResult)
    (h1 : options_text options = some otext) (h2 : get_keys options = some keys)
    (h : ai_calc pt body options (Except.ok raw) seed = Except.ok r) :
    (pt = 2 → (filtered_tokens keys raw).length < 2 → 2 ≤ options.length →
      ((∃ k ∈ keys, k ∉ filtered_tokens keys raw) →
        ∃ k, k ∈ keys ∧ k ∉ filtered_tokens keys raw ∧
          r.answers = filtered_tokens keys raw ++ [k]) ∧
      ((∀ k ∈ keys, k ∈ filtered_tokens keys raw) →
        r.answers = filtered_tokens keys raw)) ∧
    (pt ≠ 2 → r.answers = filtered_tokens keys raw) := by
  rw [ai_calc_ok_eq h1 h2] at h
  have hr := (Except.ok.inj h).symm
  subst hr
  constructor
  · intro hpt hflen hopt
    subst hpt
    have hk2 : 2 ≤ keys.length := by
      rw [get_keys_length h2]
      exact hopt
    constructor
    · intro hex
      exact backfill_append_of_unused keys _ seed hflen hk2 hex
    · intro hall
      exact backfill_of_all_used 2 keys _ seed hall
  · intro hpt
    exact backfill_of_ne_two pt keys _ seed hpt

/-- Witness for C6: on the A–F question with reply `B`, one unused key is
appended after the single valid token. -/
theorem multi_backfill_behaviour_witness :
    ∃ k, k ∈ ["A", "B", "C", "D", "E", "F"] ∧
      k ∉ filtered_tokens ["A", "B", "C", "D", "E", "F"] "B" ∧
      (["B", "A"] : List String) = filtered_tokens ["A", "B", "C", "D", "E", "F"] "B" ++ [k] :=
  ((multi_backfill_behaviour 2 "题目" optionsAF "B" 0
      "A: 细胞学说\nB: 自然辩证法\nC: 分子进化学说\nD: 日心说\nE: 生物进化论\nF: 能量守恒与转化定律\n"
      ["A", "B", "C", "D", "E", "F"] ⟨["B", "A"], []⟩ rfl rfl rfl).1
    rfl (by decide) (by decide)).1 ⟨"A", by decide, by decide⟩

/-- Claim C9: on a successful call, the returned list is the subsequence of
the normalized reply's tokens that are valid option keys, in their original
relative order, followed by at most one backfilled key that is a valid option
key not already present. -/
theorem answers_are_filtered_tokens_in_order (pt : Int) (body : String) (options : List Dict)
    (raw : String) (seed : Nat) (otext : String) (keys : List String) (r : CalcResult)
    (h1 : options_text options = some otext) (h2 : get_keys options = some keys)
    (h : ai_calc pt body options (Except.ok raw) seed = Except.ok r) :
    ∃ extra, r.answers = filtered_tokens keys raw ++ extra ∧ extra.length ≤ 1 ∧
      (∀ k ∈ extra, k ∈ keys ∧ k ∉ filtered_tokens keys raw) ∧
      (filtered_tokens keys raw).Sublist (split_answers (normalize_answer raw)) := by
  rw [ai_calc_ok_eq h1 h2] at h
  have hr := (Except.ok.inj h).symm
  subst hr
  rcases backfill_cases pt keys (filtered_tokens keys raw) seed with hb | ⟨k, hkm, hknot, hb, _⟩
  · exact ⟨[], by simpa using hb, by decide, by simp, filtered_tokens_sublist keys raw⟩
  · refine ⟨[k], by simpa using hb, Nat.le_refl 1, ?_, filtered_tokens_sublist keys raw⟩
    intro x hx
    rw [List.mem_singleton.mp hx]
    exact ⟨hkm, hknot⟩

/-- Witness for C9 at a concrete single-choice run. -/
theorem answers_are_filtered_tokens_in_order_witness :
    ∃ extra, (["A"] : List String) = filtered_tokens ["A", "B"] "A" ++ extra ∧
      extra.length ≤ 1 ∧ (∀ k ∈ extra, k ∈ ["A", "B"] ∧ k ∉ filtered_tokens ["A", "B"] "A") ∧
      (filtered_tokens ["A", "B"] "A").Sublist (split_answers (normalize_answer "A")) :=
  answers_are_filtered_tokens_in_order 1 "题目" optionsAB "A" 0 "A: 正确\nB: 错误\n"
    ["A", "B"] ⟨["A"], []⟩ rfl rfl rfl

/-- A duplicate-free list of length at least two has an element outside any
single-element list. -/
theorem exists_not_mem_singleton {keys : List String} (hnd : keys.Nodup)
    (hk2 : 2 ≤ keys.length) (a : String) : ∃ k ∈ keys, k ∉ [a] := by
  rcases keys with _ | ⟨x, tl⟩
  · exact absurd hk2 (by decide)
  rcases tl with _ | ⟨y, rest⟩
  · simp only [List.length_singleton] at hk2
    omega
  by_cases hx : x = a
  · have hxy : x ≠ y := by
      intro hcon
      exact (List.nodup_cons.mp hnd).1 (hcon ▸ List.mem_cons_self y rest)
    refine ⟨y, List.mem_cons_of_mem x (List.mem_cons_self y rest), ?_⟩
    simp only [List.mem_singleton]
    intro hya
    exact hxy (by rw [hx, hya])
  · exact ⟨x, List.mem_cons_self x (y :: rest), by simpa using hx⟩

/-- With pairwise-distinct option keys, the multiple-choice backfill yields a
nonempty result, of length at least two as soon as one answer survived, and of
length exactly one when no answer survived. -/
theorem backfill_two_length (keys ans : List String) (seed : Nat)
    (hnd : keys.Nodup) (hk2 : 2 ≤ keys.length) :
    1 ≤ (backfill 2 keys ans seed).length ∧
      (ans ≠ [] → 2 ≤ (backfill 2 keys ans seed).length) ∧
      (ans = [] → (backfill 2 keys ans seed).length = 1) := by
  by_cases hlen : 2 ≤ ans.length
  · rw [backfill_of_two_le 2 keys ans seed hlen]
    refine ⟨Nat.le_trans (by decide) hlen, fun _ => hlen, fun hnil => ?_⟩
    subst hnil
    exact absurd hlen (by decide)
  · rcases ans with _ | ⟨a, tl⟩
    · have hex : ∃ k ∈ keys, k ∉ ([] : List String) := by
        rcases keys with _ | ⟨x, tl'⟩
        · exact absurd hk2 (by decide)
        · exact ⟨x, List.mem_cons_self x tl', List.not_mem_nil x⟩
      obtain ⟨k, _, _, hb⟩ := backfill_append_of_unused keys [] seed (by decide) hk2 hex
      rw [hb]
      exact ⟨by simp, fun hne => absurd rfl hne, fun _ => by simp⟩
    · rcases tl with _ | ⟨b, tl2⟩
      · obtain ⟨k, _, _, hb⟩ := backfill_append_of_unused keys [a] seed (by simp) hk2
          (exists_not_mem_singleton hnd hk2 a)
        rw [hb]
        exact ⟨by simp, fun _ => by simp, fun hcon => absurd hcon (List.cons_ne_nil a [])⟩
      · exfalso
        apply hlen
        simp

/-- Counterexample to C2 as stated: a multiple-choice question with six
options and the invalid reply `Z` — the backfill appends only one key, so the
returned list has length 1, not at least 2. -/
theorem multi_min_two_counterexample :
    ai_calc 2 "题目" optionsAF (Except.ok "Z") 0 = Except.ok ⟨["A"], []⟩ ∧
      ¬ 2 ≤ (["A"] : List String).length :=
  ⟨rfl, by decide⟩

/-- Claim C2 (amended): for a multiple-choice question with at least two
options whose keys are pairwise distinct, the returned list is nonempty, and
has length at least 2 whenever at least one valid key survived the filter
(with no surviving key the backfill appends a single key, so the length is
exactly 1). -/
theorem multi_answer_length (body : String) (options : List Dict) (raw : String)
    (seed : Nat) (otext : String) (keys : List String) (r : CalcResult)
    (h1 : options_text options = some otext) (h2 : get_keys options = some keys)
    (hnd : keys.Nodup) (hopt : 2 ≤ options.length)
    (h : ai_calc 2 body options (Except.ok raw) seed = Except.ok r) :
    1 ≤ r.answers.length ∧
      (filtered_tokens keys raw ≠ [] → 2 ≤ r.answers.length) ∧
      (filtered_tokens keys raw = [] → r.answers.length = 1) := by
  rw [ai_calc_ok_eq h1 h2] at h
  have hr := (Except.ok.inj h).symm
  subst hr
  have hk2 : 2 ≤ keys.length := by
    rw [get_keys_length h2]
    exact hopt
  exact backfill_two_length keys (filtered_tokens keys raw) seed hnd hk2

/-- Witness for the amended C2 at a concrete run with no valid token. -/
theorem multi_answer_length_witness :
    1 ≤ (["A"] : List String).length ∧
      (filtered_tokens ["A", "B"] "Z" ≠ [] → 2 ≤ (["A"] : List String).length) ∧
      (filtered_tokens ["A", "B"] "Z" = [] → (["A"] : List String).length = 1) :=
  multi_answer_length "题目" optionsAB "Z" 0 "A: 正确\nB: 错误\n" ["A", "B"] ⟨["A"], []⟩
    rfl rfl (by decide) (by decide) rfl

/-- Counterexample to C3 as stated: a single-choice question whose reply
`A,B` contains two valid tokens — `ai_calc` returns both keys. -/
theorem single_poll_counterexample :
    ai_calc 1 "题目" optionsAB (Except.ok "A,B") 0 = Except.ok ⟨["A", "B"], []⟩ ∧
      1 < (["A", "B"] : List String).length :=
  ⟨rfl, by decide⟩

/-- Claim C3 (amended): for a single-choice or poll question the returned
list is exactly the filtered token list — no cardinality cap is applied — so
it has at most one key precisely when at most one of the reply's tokens is a
valid option key. -/
theorem single_poll_no_cap (pt : Int) (body : String) (options : List Dict)
    (raw : String) (seed : Nat) (otext : String) (keys : List String) (r : CalcResult)
    (hpt : pt = 1 ∨ pt = 3)
    (h1 : options_text options = some otext) (h2 : get_keys options = some keys)
    (h : ai_calc pt body options (Except.ok raw) seed = Except.ok r) :
    r.answers = filtered_tokens keys raw ∧
      ((filtered_tokens keys raw).length ≤ 1 → r.answers.length ≤ 1) := by
  rw [ai_calc_ok_eq h1 h2] at h
  have hr := (Except.ok.inj h).symm
  subst hr
  have hne : pt ≠ 2 := by
    rcases hpt with rfl | rfl <;> decide
  have hb := backfill_of_ne_two pt keys (filtered_tokens keys raw) seed hne
  refine ⟨hb, fun hl => ?_⟩
  simpa [hb] using hl

/-- Witness for the amended C3 at a concrete single-choice run. -/
theorem single_poll_no_cap_witness :
    (["A"] : List String) = filtered_tokens ["A", "B"] "A" ∧
      ((filtered_tokens ["A", "B"] "A").length ≤ 1 → (["A"] : List String).length ≤ 1) :=
  single_poll_no_cap 1 "题目" optionsAB "A" 0 "A: 正确\nB: 错误\n" ["A", "B"] ⟨["A"], []⟩
    (Or.inl rfl) rfl rfl rfl

/-- Counterexample to C4 as stated: the reply `A,A` repeats a valid key and
`ai_calc` returns it twice. -/
theorem no_duplicates_counterexample :
    ai_calc 1 "题目" optionsAB (Except.ok "A,A") 0 = Except.ok ⟨["A", "A"], []⟩ ∧
      ¬ (["A", "A"] : List String).Nodup :=
  ⟨rfl, by decide⟩

/-- Claim C4 (amended): the returned list has no duplicate keys provided the
valid tokens of the reply are pairwise distinct — the filter copies repeated
tokens verbatim, but the backfilled key is never one already present. -/
theorem output_nodup_of_tokens_nodup (pt : Int) (body : String) (options : List Dict)
    (raw : String) (seed : Nat) (otext : String) (keys : List String) (r : CalcResult)
    (h1 : options_text options = some otext) (h2 : get_keys options = some keys)
    (h : ai_calc pt body options (Except.ok raw) seed = Except.ok r)
    (hnd : (filtered_tokens keys raw).Nodup) : r.answers.Nodup := by
  rw [ai_calc_ok_eq h1 h2] at h
  have hr := (Except.ok.inj h).symm
  subst hr
  show (backfill pt keys (filtered_tokens keys raw) seed).Nodup
  rcases backfill_cases pt keys (filtered_tokens keys raw) seed with hb | ⟨k, _, hknot, hb, _⟩
  · rw [hb]
    exact hnd
  · rw [hb]
    exact List.Nodup.append hnd (List.nodup_singleton k)
      (fun a ha hak => hknot (List.mem_singleton.mp hak ▸ ha))

/-- Witness for the amended C4 at a concrete single-choice run. -/
theorem output_nodup_of_tokens_nodup_witness : (["A"] : List String).Nodup :=
  output_nodup_of_tokens_nodup 1 "题目" optionsAB "A" 0 "A: 正确\nB: 错误\n" ["A", "B"]
    ⟨["A"], []⟩ rfl rfl rfl (by decide)

/-- Counterexample to C7 as stated: no token of the reply `Z` is a valid key,
yet for a multiple-choice question the backfill makes the result nonempty. -/
theorem no_valid_tokens_counterexample :
    ai_calc 2 "题目" optionsAF (Except.ok "Z") 1 = Except.ok ⟨["B"], []⟩ ∧
      (["B"] : List String) ≠ [] :=
  ⟨rfl, by decide⟩

/-- Claim C7 (amended): when no normalized token equals an option key the
function returns the empty list — except for a multiple-choice question with
at least two option keys, where the backfill still appends one arbitrary
option key. -/
theorem no_valid_tokens_result (pt : Int) (body : String) (options : List Dict)
    (raw : String) (seed : Nat) (otext : String) (keys : List String) (r : CalcResult)
    (h1 : options_text options = some otext) (h2 : get_keys options = some keys)
    (h : ai_calc pt body options (Except.ok raw) seed = Except.ok r)
    (hF : filtered_tokens keys raw = []) :
    (pt = 2 ∧ 2 ≤ keys.length → ∃ k ∈ keys, r.answers = [k]) ∧
    (¬(pt = 2 ∧ 2 ≤ keys.length) → r.answers = []) := by
  rw [ai_calc_ok_eq h1 h2] at h
  have hr := (Except.ok.inj h).symm
  subst hr
  constructor
  · rintro ⟨hpt, hk2⟩
    subst hpt
    have hex : ∃ k ∈ keys, k ∉ filtered_tokens keys raw := by
      rw [hF]
      rcases keys with _ | ⟨x, tl⟩
      · exact absurd hk2 (by decide)
      · exact ⟨x, List.mem_cons_self x tl, List.not_mem_nil x⟩
    have hflen : (filtered_tokens keys raw).length < 2 := by
      rw [hF]
      decide
    obtain ⟨k, hk, _, hb⟩ := backfill_append_of_unused keys (filtered_tokens keys raw) seed
      hflen hk2 hex
    refine ⟨k, hk, ?_⟩
    show backfill 2 keys (filtered_tokens keys raw) seed = [k]
    rw [hb, hF]
    rfl
  · intro hn
    show backfill pt keys (filtered_tokens keys raw) seed = []
    rw [hF]
    unfold backfill
    rw [if_neg]
    rintro ⟨hpt, _, hk2⟩
    exact hn ⟨hpt, hk2⟩

/-- Witness for the amended C7: multiple-choice, reply `Z`, seed 1 — the
result is a single backfilled key. -/
theorem no_valid_tokens_result_witness :
    ∃ k ∈ (["A", "B"] : List String), (["B"] : List String) = [k] :=
  (no_valid_tokens_result 2 "题目" optionsAB "Z" 1 "A: 正确\nB: 错误\n" ["A", "B"]
      ⟨["B"], []⟩ rfl rfl rfl rfl).1 (by decide)

end RainClassroom
